import Mathlib

/-!
Verification of the command-line resolution core of code-server.

The repository ships the unit tests of `src/node/cli.ts`
(`test/unit/node/cli.test.ts`) together with the design document; the
`cli.ts` module itself is not part of the provided sources.  The
definitions below therefore embed the parser, the defaults resolver, the
bind-address resolver and the single-instance coordinator as described by
the design document, with every observable detail pinned by the
repository's own unit tests.  Machine integers do not overflow on any path
modelled here (ports are small naturals), filesystem and network effects
are modelled by explicit snapshot values (`Env`, `World`), and fallible
operations return `Except`/`Option`.
-/

namespace CodeServer

/-- Modelled from the spec: the current working directory against which
relative path-valued options are resolved at parse time. -/
def cwd : String := "/cwd"

/-- Modelled from the spec: the user data directory from which default
certificate material and extension directories are derived. -/
def dataDir : String := "/data"

/-- Join two path segments with a separator, as `path.join` does for the
simple segment shapes used by the resolver. -/
def pathJoin (a b : String) : String := a ++ "/" ++ b

/-- Modelled from the spec: path-domain values are resolved to an absolute
form relative to the process's current working directory.  A value that is
already absolute is kept; normalization of dot segments is not needed by
any property proved here. -/
def resolvePath (p : String) : String :=
  match p.data with
  | '/' :: _ => p
  | _ => cwd ++ "/" ++ p

/-- Split a character list at the first `'='`: the part before it, and
`some` of everything after it (`none` when there is no `'='` at all). -/
def splitFirstEq : List Char → List Char × Option (List Char)
  | [] => ([], none)
  | c :: cs =>
    if c = '=' then ([], some cs)
    else
      let r := splitFirstEq cs
      (c :: r.1, r.2)

/-- Modelled from the spec: `splitOnFirstEquals` splits a `name=value`
token at the first `=` only; later `=` characters stay in the value
verbatim, and a trailing `=` with nothing after it yields no value element
at all (`"auth="` gives `["auth"]`). -/
def splitOnFirstEquals (s : String) : List String :=
  match splitFirstEq s.data with
  | (a, none) => [String.mk a]
  | (a, some v) => if v = [] then [String.mk a] else [String.mk a, String.mk v]

/-- Decidable equality of parse outcomes, for evaluating the model on
concrete argument vectors. -/
instance {ε α : Type} [DecidableEq ε] [DecidableEq α] : DecidableEq (Except ε α) := fun a b =>
  match a, b with
  | .ok x, .ok y =>
    if h : x = y then .isTrue (by rw [h]) else .isFalse (fun hc => by cases hc; exact h rfl)
  | .error x, .error y =>
    if h : x = y then .isTrue (by rw [h]) else .isFalse (fun hc => by cases hc; exact h rfl)
  | .ok _, .error _ => .isFalse (fun hc => by cases hc)
  | .error _, .ok _ => .isFalse (fun hc => by cases hc)

/-- Wrapper for option values that distinguish "present but empty" from
"present with a value" (the `OptionalString` class of the source). -/
structure OptionalString where
  value : Option String
deriving DecidableEq, Repr

/-- Modelled from the spec: the raw structured arguments produced by the
parser.  Keys absent from the TypeScript object are `none`/`false`/`[]`
here; `positional` is the ordered `_` list. -/
structure UserProvidedArgs where
  auth : Option String := none
  password : Option String := none
  hashedPassword : Option String := none
  cert : Option OptionalString := none
  certKey : Option String := none
  disableUpdateCheck : Bool := false
  enable : List String := []
  help : Bool := false
  host : Option String := none
  json : Bool := false
  locale : Option String := none
  log : Option String := none
  openFlag : Bool := false
  port : Option Nat := none
  bindAddr : Option String := none
  socket : Option String := none
  verbose : Bool := false
  version : Bool := false
  proxyDomain : List String := []
  reuseWindow : Bool := false
  newWindow : Bool := false
  link : Option OptionalString := none
  userDataDir : Option String := none
  extensionsDir : Option String := none
  builtinExtensionsDir : Option String := none
  positional : List String := []
deriving DecidableEq, Repr

/-- Coerced value handed to an option's field setter. -/
inductive OptVal
  | flagV
  | strV (s : String)
  | natV (n : Nat)
  | optStrV (s : Option String)

/-- Value domain of a registered option. -/
inductive OptType
  | flag
  | str (isPath : Bool)
  | strArr
  | num
  | optStr (isPath : Bool)
  | enum (allowed : List String)

/-- Registry entry: the value domain plus the typed field setter. -/
structure OptEntry where
  type : OptType
  set : OptVal → UserProvidedArgs → UserProvidedArgs

/-- Modelled from the spec: the allowed values of the `log` option. -/
def logLevels : List String := ["trace", "debug", "info", "warn", "error"]

/-- Modelled from the spec: the allowed values of the `auth` option. -/
def authValues : List String := ["password", "none"]

/-- Registry entry of the enumerated `auth` option. -/
def authEntry : OptEntry :=
  ⟨.enum authValues, fun v a => match v with | .strV s => { a with auth := some s } | _ => a⟩

/-- Registry entry of the `password` option (config file and `$PASSWORD` only). -/
def passwordEntry : OptEntry :=
  ⟨.str false, fun v a => match v with | .strV s => { a with password := some s } | _ => a⟩

/-- Registry entry of the `hashed-password` option (config file and environment only). -/
def hashedPasswordEntry : OptEntry :=
  ⟨.str false, fun v a => match v with | .strV s => { a with hashedPassword := some s } | _ => a⟩

/-- Registry entry of the optional-value, path-resolved `cert` option. -/
def certEntry : OptEntry :=
  ⟨.optStr true, fun v a => match v with | .optStrV s => { a with cert := some ⟨s⟩ } | _ => a⟩

/-- Registry entry of the `cert-key` companion option. -/
def certKeyEntry : OptEntry :=
  ⟨.str true, fun v a => match v with | .strV s => { a with certKey := some s } | _ => a⟩

/-- Registry entry of the `disable-update-check` flag. -/
def disableUpdateCheckEntry : OptEntry := ⟨.flag, fun _ a => { a with disableUpdateCheck := true }⟩

/-- Registry entry of the repeatable `enable` option. -/
def enableEntry : OptEntry :=
  ⟨.strArr, fun v a => match v with | .strV s => { a with enable := a.enable ++ [s] } | _ => a⟩

/-- Registry entry of the `help` flag. -/
def helpEntry : OptEntry := ⟨.flag, fun _ a => { a with help := true }⟩

/-- Registry entry of the `host` option. -/
def hostEntry : OptEntry :=
  ⟨.str false, fun v a => match v with | .strV s => { a with host := some s } | _ => a⟩

/-- Registry entry of the `json` flag. -/
def jsonEntry : OptEntry := ⟨.flag, fun _ a => { a with json := true }⟩

/-- Registry entry of the `locale` option. -/
def localeEntry : OptEntry :=
  ⟨.str false, fun v a => match v with | .strV s => { a with locale := some s } | _ => a⟩

/-- Registry entry of the enumerated `log` option. -/
def logEntry : OptEntry :=
  ⟨.enum logLevels, fun v a => match v with | .strV s => { a with log := some s } | _ => a⟩

/-- Registry entry of the `open` flag. -/
def openEntry : OptEntry := ⟨.flag, fun _ a => { a with openFlag := true }⟩

/-- Registry entry of the numeric `port` option. -/
def portEntry : OptEntry :=
  ⟨.num, fun v a => match v with | .natV n => { a with port := some n } | _ => a⟩

/-- Registry entry of the `bind-addr` option. -/
def bindAddrEntry : OptEntry :=
  ⟨.str false, fun v a => match v with | .strV s => { a with bindAddr := some s } | _ => a⟩

/-- Registry entry of the path-resolved `socket` option. -/
def socketEntry : OptEntry :=
  ⟨.str true, fun v a => match v with | .strV s => { a with socket := some s } | _ => a⟩

/-- Registry entry of the `verbose` flag (short alias `vvv`). -/
def verboseEntry : OptEntry := ⟨.flag, fun _ a => { a with verbose := true }⟩

/-- Registry entry of the `version` flag (short alias `v`). -/
def versionEntry : OptEntry := ⟨.flag, fun _ a => { a with version := true }⟩

/-- Registry entry of the repeatable `proxy-domain` option. -/
def proxyDomainEntry : OptEntry :=
  ⟨.strArr, fun v a => match v with | .strV s => { a with proxyDomain := a.proxyDomain ++ [s] } | _ => a⟩

/-- Registry entry of the `reuse-window` flag. -/
def reuseWindowEntry : OptEntry := ⟨.flag, fun _ a => { a with reuseWindow := true }⟩

/-- Registry entry of the `new-window` flag. -/
def newWindowEntry : OptEntry := ⟨.flag, fun _ a => { a with newWindow := true }⟩

/-- Registry entry of the optional-value `link` option. -/
def linkEntry : OptEntry :=
  ⟨.optStr false, fun v a => match v with | .optStrV s => { a with link := some ⟨s⟩ } | _ => a⟩

/-- Registry entry of the path-resolved `user-data-dir` option. -/
def userDataDirEntry : OptEntry :=
  ⟨.str true, fun v a => match v with | .strV s => { a with userDataDir := some s } | _ => a⟩

/-- Registry entry of the path-resolved `extensions-dir` option. -/
def extensionsDirEntry : OptEntry :=
  ⟨.str true, fun v a => match v with | .strV s => { a with extensionsDir := some s } | _ => a⟩

/-- Registry entry of the path-resolved `builtin-extensions-dir` option. -/
def builtinExtensionsDirEntry : OptEntry :=
  ⟨.str true, fun v a => match v with | .strV s => { a with builtinExtensionsDir := some s } | _ => a⟩

/-- Modelled from the spec: the static option registry, looked up by
canonical long name.  The option table is the one in the design document's
external-interface list; value domains follow the spec and the shapes
pinned by the repository's unit tests. -/
def findOption (key : String) : Option OptEntry :=
  if key = "auth" then some authEntry
  else if key = "password" then some passwordEntry
  else if key = "hashed-password" then some hashedPasswordEntry
  else if key = "cert" then some certEntry
  else if key = "cert-key" then some certKeyEntry
  else if key = "disable-update-check" then some disableUpdateCheckEntry
  else if key = "enable" then some enableEntry
  else if key = "help" then some helpEntry
  else if key = "host" then some hostEntry
  else if key = "json" then some jsonEntry
  else if key = "locale" then some localeEntry
  else if key = "log" then some logEntry
  else if key = "open" then some openEntry
  else if key = "port" then some portEntry
  else if key = "bind-addr" then some bindAddrEntry
  else if key = "socket" then some socketEntry
  else if key = "verbose" then some verboseEntry
  else if key = "version" then some versionEntry
  else if key = "proxy-domain" then some proxyDomainEntry
  else if key = "reuse-window" then some reuseWindowEntry
  else if key = "new-window" then some newWindowEntry
  else if key = "link" then some linkEntry
  else if key = "user-data-dir" then some userDataDirEntry
  else if key = "extensions-dir" then some extensionsDirEntry
  else if key = "builtin-extensions-dir" then some builtinExtensionsDirEntry
  else none

/-- Modelled from the spec: short aliases, looked up against the whole
token body after the single dash (the unit tests pin `-v` to `version`
and `-vvv` to `verbose`). -/
def findShort (body : String) : Option String :=
  if body = "v" then some "version"
  else if body = "vvv" then some "verbose"
  else none

/-- Modelled from the spec: options forbidden on the command line fail
with a message naming the permitted sources; the check is skipped when the
tokens come from the config file. -/
def secretCheck (fromConfigFile : Bool) (key : String) : Option String :=
  if fromConfigFile then none
  else if key = "password" then
    some "--password can only be set in the config file or passed in via $PASSWORD"
  else if key = "hashed-password" then
    some "--hashed-password can only be set in the config file or passed in via $HASHED_PASSWORD"
  else none

/-- Accumulate base-10 digits; `none` on the first non-digit or when no
digit was seen at all. -/
def decimalDigits : List Char → Option Nat → Option Nat
  | [], acc => acc
  | c :: cs, acc =>
    if '0' ≤ c ∧ c ≤ '9' then
      decimalDigits cs (some ((acc.getD 0) * 10 + (c.toNat - '0'.toNat)))
    else none

/-- Modelled from the spec: numeric-domain values must parse as base-10
integers. -/
def toDecimalNat (s : String) : Option Nat := decimalDigits s.data none

/-- Coerce and validate a present value for a non-flag option and apply
its setter. -/
def applyValued (key : String) (e : OptEntry) (v : String) (args : UserProvidedArgs) :
    Except String UserProvidedArgs :=
  match e.type with
  | .flag => .ok (e.set .flagV args)
  | .str isPath => .ok (e.set (.strV (if isPath then resolvePath v else v)) args)
  | .strArr => .ok (e.set (.strV v) args)
  | .num =>
    match toDecimalNat v with
    | some n => .ok (e.set (.natV n) args)
    | none => .error ("--" ++ key ++ " must be a number")
  | .optStr isPath =>
    if v = "false" then .ok args
    else .ok (e.set (.optStrV (some (if isPath then resolvePath v else v))) args)
  | .enum allowed =>
    if allowed.contains v then .ok (e.set (.strV v) args)
    else .error ("--" ++ key ++ " valid values: [" ++ String.intercalate ", " allowed ++ "]")

/-- Handle one recognized option: a flag ignores values entirely; a valued
option uses the embedded `=` value, else consumes the next token when that
token does not itself look like an option; an optional-value option left
without a value becomes the present-but-empty sentinel; any other option
left without a value is a `MissingValue` failure.  The boolean reports
whether the next token was consumed. -/
def handleValued (key : String) (e : OptEntry) (embedded nextVal : Option String)
    (args : UserProvidedArgs) : Except String (UserProvidedArgs × Bool) :=
  match e.type with
  | .flag => .ok (e.set .flagV args, false)
  | _ =>
    match embedded with
    | some v => (applyValued key e v args).map (fun a => (a, false))
    | none =>
      match nextVal with
      | some v => (applyValued key e v args).map (fun a => (a, true))
      | none =>
        match e.type with
        | .optStr _ => .ok (e.set (.optStrV none) args, false)
        | _ => .error ("--" ++ key ++ " requires a value")

/-- Lexical class of one argv token. -/
inductive TokClass
  | endOfOpts
  | long (body : List Char)
  | short (body : List Char)
  | plain

/-- Classify a token: the literal `--` ends option parsing, `--x…` is a
long option, `-x…` is a short alias, anything else is positional. -/
def classify (s : String) : TokClass :=
  match s.data with
  | ['-', '-'] => .endOfOpts
  | '-' :: '-' :: body => .long body
  | '-' :: body => .short body
  | _ => .plain

/-- Does the token begin with a dash (and so cannot be consumed as the
value of the preceding option)? -/
def isDashToken (s : String) : Bool :=
  match s.data with
  | '-' :: _ => true
  | _ => false

/-- Append one positional argument to the ordered `_` list. -/
def pushPos (a : UserProvidedArgs) (s : String) : UserProvidedArgs :=
  { a with positional := a.positional ++ [s] }

/-- Value embedded after the first `=` of a long token; an empty remainder
counts as no value at all. -/
def toEmbedded : Option (List Char) → Option String
  | some v => if v = [] then none else some (String.mk v)
  | none => none

/-- The candidate value in the next token: present only when there is a
next token and it does not begin with a dash. -/
def takeNext : List String → Option String
  | v :: _ => if isDashToken v then none else some v
  | [] => none

/-- Modelled from the spec: the left-to-right token walk of `parse`.
Positional tokens accumulate in order; `--` switches to positional-only
mode; long options split on the first `=`; short tokens are looked up
whole against the short-alias table; unknown names fail; secrets on the
command line fail with the dedicated message. -/
def parseLoop (cfg : Bool) : List String → UserProvidedArgs → Bool → Except String UserProvidedArgs
  | [], args, _ => .ok args
  | s :: rest, args, ended =>
    if ended then parseLoop cfg rest (pushPos args s) true
    else
      match classify s with
      | .endOfOpts => parseLoop cfg rest args true
      | .plain => parseLoop cfg rest (pushPos args s) ended
      | .long body =>
        let pr := splitFirstEq body
        let key := String.mk pr.1
        match findOption key with
        | none => .error ("Unknown option " ++ s)
        | some entry =>
          match secretCheck cfg key with
          | some msg => .error msg
          | none =>
            match handleValued key entry (toEmbedded pr.2) (takeNext rest) args with
            | .error e => .error e
            | .ok (args', consumed) =>
              if consumed then
                match rest with
                | _ :: rest2 => parseLoop cfg rest2 args' ended
                | [] => .ok args'
              else parseLoop cfg rest args' ended
      | .short body =>
        match findShort (String.mk body) with
        | none => .error ("Unknown option " ++ s)
        | some key =>
          match findOption key with
          | none => .error ("Unknown option " ++ s)
          | some entry =>
            match secretCheck cfg key with
            | some msg => .error msg
            | none =>
              match handleValued key entry none (takeNext rest) args with
              | .error e => .error e
              | .ok (args', consumed) =>
                if consumed then
                  match rest with
                  | _ :: rest2 => parseLoop cfg rest2 args' ended
                  | [] => .ok args'
                else parseLoop cfg rest args' ended

/-- Modelled from the spec: `parse` walks the argument vector and then
re-checks the companion requirement: a certificate carrying an explicit
value without a `cert-key` anywhere is a `MissingCompanion` failure.
`cfg` is true when the tokens come from the config file rather than argv,
which lifts the forbidden-on-command-line check. -/
def parse (cfg : Bool) (argv : List String) : Except String UserProvidedArgs :=
  match parseLoop cfg argv {} false with
  | .error e => .error e
  | .ok args =>
    match args.cert with
    | some ⟨some _⟩ => if args.certKey = none then .error "--cert-key is missing" else .ok args
    | _ => .ok args

/-- Modelled from the spec: the environment snapshot read by the defaults
resolver, the bind-address resolver and the single-instance coordinator. -/
structure Env where
  logLevel : Option String := none
  password : Option String := none
  hashedPassword : Option String := none
  port : Option String := none
  vscodeIpcHookCli : Option String := none
deriving DecidableEq, Repr

/-- Modelled from the spec: the fully defaulted configuration produced by
`setDefaults` (every option concrete apart from genuinely optional
values). -/
structure DefaultedArgs where
  auth : String
  host : String
  port : Nat
  proxyDomain : List String
  usingEnvPassword : Bool
  usingEnvHashedPassword : Bool
  extensionsDir : String
  userDataDir : String
  positional : List String
  log : Option String
  verbose : Bool
  password : Option String
  hashedPassword : Option String
  cert : Option OptionalString
  certKey : Option String
  socket : Option String
  bindAddr : Option String
  link : Option OptionalString
deriving DecidableEq, Repr

/-- Strip a leading wildcard marker from a proxy domain. -/
def stripWildcard (s : String) : String :=
  match s.data with
  | '*' :: '.' :: rest => String.mk rest
  | _ => s

/-- Deduplicate, preserving first-seen order. -/
def dedupFirst (l : List String) : List String :=
  l.foldl (fun acc s => if acc.contains s then acc else acc ++ [s]) []

/-- Modelled from the spec: default certificate material is synthesized
deterministically under the data directory, named after the host. -/
def generateCertificate (host : String) : String × String :=
  (pathJoin dataDir (host ++ ".crt"), pathJoin dataDir (host ++ ".key"))

/-- Modelled from the spec: `setDefaults` resolves the raw arguments
against the environment snapshot.  The log cascade gives `verbose` the
trace level, else an explicit `--log`, else a valid `LOG_LEVEL`; secrets
come from the environment ahead of lower layers; proxy domains are
normalized and deduplicated; the `link` convenience option is applied last
and forces authentication off, an ephemeral port and cleared certificate
and socket values; a present-but-empty certificate synthesizes default
certificate and key paths. -/
def setDefaults (args : UserProvidedArgs) (env : Env) : DefaultedArgs :=
  let userDataDir := args.userDataDir.getD dataDir
  let extensionsDir := args.extensionsDir.getD (pathJoin userDataDir "extensions")
  let log :=
    if args.verbose then some "trace"
    else
      match args.log with
      | some l => some l
      | none =>
        match env.logLevel with
        | some l => if logLevels.contains l then some l else none
        | none => none
  let verbose : Bool := log = some "trace"
  let password := match env.password with | some p => some p | none => args.password
  let usingEnvPassword := env.password.isSome
  let hashedPassword := match env.hashedPassword with | some p => some p | none => args.hashedPassword
  let usingEnvHashedPassword := env.hashedPassword.isSome
  let proxyDomain := dedupFirst (args.proxyDomain.map stripWildcard)
  let auth := args.auth.getD "password"
  let host := args.host.getD "localhost"
  let port := args.port.getD 8080
  let cert := args.cert
  let certKey := args.certKey
  let socket := args.socket
  let st :=
    if args.link.isSome then ("none", "localhost", 0, (none : Option String), (none : Option OptionalString))
    else (auth, host, port, socket, cert)
  let certPair :=
    match st.2.2.2.2 with
    | some ⟨none⟩ =>
      let g := generateCertificate (args.host.getD "localhost")
      (some (OptionalString.mk (some g.1)), some g.2)
    | c => (c, certKey)
  { auth := st.1, host := st.2.1, port := st.2.2.1, proxyDomain := proxyDomain,
    usingEnvPassword := usingEnvPassword, usingEnvHashedPassword := usingEnvHashedPassword,
    extensionsDir := extensionsDir, userDataDir := userDataDir,
    positional := args.positional, log := log, verbose := verbose,
    password := password, hashedPassword := hashedPassword,
    cert := certPair.1, certKey := certPair.2, socket := st.2.2.2.1,
    bindAddr := args.bindAddr, link := args.link }

/-- Network address: a host and a port, `0` meaning an ephemeral port. -/
structure Addr where
  host : String
  port : Nat
deriving DecidableEq, Repr

/-- Modelled from the spec: split an explicit `host:port` bind address at
its last colon; the port portion must be numeric. -/
def parseBindAddr (s : String) : Addr :=
  match (s.splitOn ":").reverse with
  | p :: h :: hs => { host := String.intercalate ":" (h :: hs).reverse, port := (toDecimalNat p).getD 8080 }
  | _ => { host := s, port := 8080 }

/-- Modelled from the spec: the bind-address resolver.  `bind-addr` sets
both fields at once; the discrete `host` then overrides the host field,
the numeric `PORT` environment variable overrides the port field, and an
explicit discrete `port` overrides both of those; each field falls back to
the input default. -/
def bindAddrFromArgs (addr : Addr) (args : UserProvidedArgs) (env : Env) : Addr :=
  let a1 := match args.bindAddr with
    | some ba => parseBindAddr ba
    | none => addr
  let a2 := match args.host with
    | some h => { a1 with host := h }
    | none => a1
  let a3 := match env.port with
    | some p =>
      match toDecimalNat p with
      | some n => { a2 with port := n }
      | none => a2
    | none => a2
  match args.port with
  | some p => { a3 with port := p }
  | none => a3

/-- Modelled from the spec: a snapshot of the external state consulted by
the single-instance coordinator — the inherited session endpoint
identifier in the environment, the contents of the recorded endpoint file
(`none` when the file is absent), and the outcome of the bounded liveness
probe against an endpoint (`false` uniformly for a refused, missing or
timed-out connection; the probe never raises). -/
structure World where
  env : Env := {}
  socketFile : Option String := none
  canConnect : String → Bool := fun _ => false

/-- Modelled from the spec: the single-instance coordinator.  An inherited
endpoint identifier wins outright; a forcing flag (`reuse-window` or
`new-window`) returns the recorded endpoint file contents without probing;
otherwise reuse happens only when no explicit port is set, positional
paths exist, the endpoint file is present and the liveness probe
succeeds. -/
def shouldOpenInExistingInstance (w : World) (args : UserProvidedArgs) : Option String :=
  match w.env.vscodeIpcHookCli with
  | some id => some id
  | none =>
    if args.reuseWindow || args.newWindow then w.socketFile
    else if args.port = none ∧ args.positional ≠ [] then
      match w.socketFile with
      | some sp => if w.canConnect sp then some sp else none
      | none => none
    else none

/-- Argument vector of the repository's link-override unit test. -/
def linkArgv : List String :=
  ["--cert", "test", "--cert-key", "test", "--socket", "test", "--host", "0.0.0.0",
    "--port", "8888", "--link", "test"]

/-- Raw arguments produced by parsing `linkArgv`. -/
def linkRaw : UserProvidedArgs :=
  { cert := some ⟨some (resolvePath "test")⟩, certKey := some (resolvePath "test"),
    socket := some (resolvePath "test"), host := some "0.0.0.0", port := some 8888,
    link := some ⟨some "test"⟩ }

/-- Splitting a list whose first `'='` sits between `l1` and `l2` recovers
exactly that decomposition. -/
theorem splitFirstEq_append (l1 l2 : List Char) (h : '=' ∉ l1) :
    splitFirstEq (l1 ++ '=' :: l2) = (l1, some l2) := by
  induction l1 with
  | nil => simp [splitFirstEq]
  | cons c cs ih =>
    have hc : c ≠ '=' := fun hc => h (by simp [hc])
    have hcs : '=' ∉ cs := fun hm => h (List.mem_cons_of_mem _ hm)
    simp [splitFirstEq, hc, ih hcs]

/-- A nonempty string has a nonempty character list. -/
theorem data_ne_nil {s : String} (h : s ≠ "") : s.data ≠ [] := by
  intro hd
  apply h
  cases s
  simp_all

/-- A key that passes the command-line secret check is neither of the two
secret-bearing option names. -/
theorem secretCheck_none {key : String} (h : secretCheck false key = none) :
    key ≠ "password" ∧ key ≠ "hashed-password" := by
  refine ⟨fun hk => ?_, fun hk => ?_⟩ <;> subst hk <;> exact absurd h (by decide)

/-- No registry entry other than the two secret-bearing ones writes the
`password` or `hashedPassword` fields. -/
theorem set_preserves_secrets {key : String} {e : OptEntry} (hf : findOption key = some e)
    (h1 : key ≠ "password") (h2 : key ≠ "hashed-password") (v : OptVal) (a : UserProvidedArgs) :
    (e.set v a).password = a.password ∧ (e.set v a).hashedPassword = a.hashedPassword := by
  unfold findOption at hf
  by_cases k1 : key = "auth"
  · rw [if_pos k1] at hf
    injection hf with hf
    subst hf
    cases v <;> exact ⟨rfl, rfl⟩
  rw [if_neg k1] at hf
  by_cases k2 : key = "password"
  · exact absurd k2 h1
  rw [if_neg k2] at hf
  by_cases k3 : key = "hashed-password"
  · exact absurd k3 h2
  rw [if_neg k3] at hf
  by_cases k4 : key = "cert"
  · rw [if_pos k4] at hf
    injection hf with hf
    subst hf
    cases v <;> exact ⟨rfl, rfl⟩
  rw [if_neg k4] at hf
  by_cases k5 : key = "cert-key"
  · rw [if_pos k5] at hf
    injection hf with hf
    subst hf
    cases v <;> exact ⟨rfl, rfl⟩
  rw [if_neg k5] at hf
  by_cases k6 : key = "disable-update-check"
  · rw [if_pos k6] at hf
    injection hf with hf
    subst hf
    cases v <;> exact ⟨rfl, rfl⟩
  rw [if_neg k6] at hf
  by_cases k7 : key = "enable"
  · rw [if_pos k7] at hf
    injection hf with hf
    subst hf
    cases v <;> exact ⟨rfl, rfl⟩
  rw [if_neg k7] at hf
  by_cases k8 : key = "help"
  · rw [if_pos k8] at hf
    injection hf with hf
    subst hf
    cases v <;> exact ⟨rfl, rfl⟩
  rw [if_neg k8] at hf
  by_cases k9 : key = "host"
  · rw [if_pos k9] at hf
    injection hf with hf
    subst hf
    cases v <;> exact ⟨rfl, rfl⟩
  rw [if_neg k9] at hf
  by_cases k10 : key = "json"
  · rw [if_pos k10] at hf
    injection hf with hf
    subst hf
    cases v <;> exact ⟨rfl, rfl⟩
  rw [if_neg k10] at hf
  by_cases k11 : key = "locale"
  · rw [if_pos k11] at hf
    injection hf with hf
    subst hf
    cases v <;> exact ⟨rfl, rfl⟩
  rw [if_neg k11] at hf
  by_cases k12 : key = "log"
  · rw [if_pos k12] at hf
    injection hf with hf
    subst hf
    cases v <;> exact ⟨rfl, rfl⟩
  rw [if_neg k12] at hf
  by_cases k13 : key = "open"
  · rw [if_pos k13] at hf
    injection hf with hf
    subst hf
    cases v <;> exact ⟨rfl, rfl⟩
  rw [if_neg k13] at hf
  by_cases k14 : key = "port"
  · rw [if_pos k14] at hf
    injection hf with hf
    subst hf
    cases v <;> exact ⟨rfl, rfl⟩
  rw [if_neg k14] at hf
  by_cases k15 : key = "bind-addr"
  · rw [if_pos k15] at hf
    injection hf with hf
    subst hf
    cases v <;> exact ⟨rfl, rfl⟩
  rw [if_neg k15] at hf
  by_cases k16 : key = "socket"
  · rw [if_pos k16] at hf
    injection hf with hf
    subst hf
    cases v <;> exact ⟨rfl, rfl⟩
  rw [if_neg k16] at hf
  by_cases k17 : key = "verbose"
  · rw [if_pos k17] at hf
    injection hf with hf
    subst hf
    cases v <;> exact ⟨rfl, rfl⟩
  rw [if_neg k17] at hf
  by_cases k18 : key = "version"
  · rw [if_pos k18] at hf
    injection hf with hf
    subst hf
    cases v <;> exact ⟨rfl, rfl⟩
  rw [if_neg k18] at hf
  by_cases k19 : key = "proxy-domain"
  · rw [if_pos k19] at hf
    injection hf with hf
    subst hf
    cases v <;> exact ⟨rfl, rfl⟩
  rw [if_neg k19] at hf
  by_cases k20 : key = "reuse-window"
  · rw [if_pos k20] at hf
    injection hf with hf
    subst hf
    cases v <;> exact ⟨rfl, rfl⟩
  rw [if_neg k20] at hf
  by_cases k21 : key = "new-window"
  · rw [if_pos k21] at hf
    injection hf with hf
    subst hf
    cases v <;> exact ⟨rfl, rfl⟩
  rw [if_neg k21] at hf
  by_cases k22 : key = "link"
  · rw [if_pos k22] at hf
    injection hf with hf
    subst hf
    cases v <;> exact ⟨rfl, rfl⟩
  rw [if_neg k22] at hf
  by_cases k23 : key = "user-data-dir"
  · rw [if_pos k23] at hf
    injection hf with hf
    subst hf
    cases v <;> exact ⟨rfl, rfl⟩
  rw [if_neg k23] at hf
  by_cases k24 : key = "extensions-dir"
  · rw [if_pos k24] at hf
    injection hf with hf
    subst hf
    cases v <;> exact ⟨rfl, rfl⟩
  rw [if_neg k24] at hf
  by_cases k25 : key = "builtin-extensions-dir"
  · rw [if_pos k25] at hf
    injection hf with hf
    subst hf
    cases v <;> exact ⟨rfl, rfl⟩
  rw [if_neg k25] at hf
  exact Option.noConfusion hf

/-- Applying a validated value through a non-secret entry leaves the two
secret fields unchanged. -/
theorem applyValued_preserves {key : String} {e : OptEntry} {v : String}
    {args args' : UserProvidedArgs} (hf : findOption key = some e)
    (h1 : key ≠ "password") (h2 : key ≠ "hashed-password")
    (h : applyValued key e v args = .ok args') :
    args'.password = args.password ∧ args'.hashedPassword = args.hashedPassword := by
  have hp := set_preserves_secrets hf h1 h2
  unfold applyValued at h
  split at h
  · injection h with h; subst h; exact hp _ _
  · injection h with h; subst h; exact hp _ _
  · injection h with h; subst h; exact hp _ _
  · split at h
    · injection h with h; subst h; exact hp _ _
    · exact Except.noConfusion h
  · split at h
    · injection h with h; subst h; exact ⟨rfl, rfl⟩
    · injection h with h; subst h; exact hp _ _
  · split at h
    · injection h with h; subst h; exact hp _ _
    · exact Except.noConfusion h

/-- One full option-handling step through a non-secret entry leaves the
two secret fields unchanged. -/
theorem handleValued_preserves {key : String} {e : OptEntry} {embedded nextVal : Option String}
    {args args' : UserProvidedArgs} {consumed : Bool} (hf : findOption key = some e)
    (h1 : key ≠ "password") (h2 : key ≠ "hashed-password")
    (h : handleValued key e embedded nextVal args = .ok (args', consumed)) :
    args'.password = args.password ∧ args'.hashedPassword = args.hashedPassword := by
  have hp := set_preserves_secrets hf h1 h2
  unfold handleValued at h
  split at h
  · injection h with h
    rw [show args' = e.set .flagV args from (congrArg Prod.fst h).symm]
    exact hp _ _
  · split at h
    · cases ha : applyValued key e _ args with
      | error er => rw [ha] at h; exact Except.noConfusion h
      | ok a0 =>
        rw [ha] at h
        injection h with h
        rw [show args' = a0 from (congrArg Prod.fst h).symm]
        exact applyValued_preserves hf h1 h2 ha
    · split at h
      · cases ha : applyValued key e _ args with
        | error er => rw [ha] at h; exact Except.noConfusion h
        | ok a0 =>
          rw [ha] at h
          injection h with h
          rw [show args' = a0 from (congrArg Prod.fst h).symm]
          exact applyValued_preserves hf h1 h2 ha
      · split at h
        · injection h with h
          rw [show args' = e.set (.optStrV none) args from (congrArg Prod.fst h).symm]
          exact hp _ _
        · exact Except.noConfusion h

/-- Secrets cannot be introduced by any step of the argv token walk. -/
theorem parseLoop_secrets (n : Nat) : ∀ (argv : List String), argv.length ≤ n →
    ∀ (args : UserProvidedArgs) (ended : Bool) (args' : UserProvidedArgs),
      parseLoop false argv args ended = .ok args' →
      args.password = none → args.hashedPassword = none →
      args'.password = none ∧ args'.hashedPassword = none := by
  induction n with
  | zero =>
    intro argv hlen args ended args' h hp hh
    have hnil : argv = [] := List.length_eq_zero.mp (Nat.le_zero.mp hlen)
    subst hnil
    unfold parseLoop at h
    injection h with h
    subst h
    exact ⟨hp, hh⟩
  | succ n ih =>
    intro argv hlen args ended args' h hp hh
    cases argv with
    | nil =>
      unfold parseLoop at h
      injection h with h
      subst h
      exact ⟨hp, hh⟩
    | cons s rest =>
      have hrest : rest.length ≤ n := Nat.le_of_succ_le_succ hlen
      unfold parseLoop at h
      by_cases he : ended = true
      · rw [if_pos he] at h
        exact ih rest hrest _ _ _ h hp hh
      · rw [if_neg he] at h
        cases hc : classify s with
        | endOfOpts => rw [hc] at h; exact ih rest hrest _ _ _ h hp hh
        | plain => rw [hc] at h; exact ih rest hrest _ _ _ h hp hh
        | long body =>
          rw [hc] at h; try simp only at h
          try simp only at h
          cases hf : findOption (String.mk (splitFirstEq body).1) with
          | none => rw [hf] at h; exact Except.noConfusion h
          | some entry =>
            rw [hf] at h; try simp only at h
            cases hs : secretCheck false (String.mk (splitFirstEq body).1) with
            | some msg => rw [hs] at h; exact Except.noConfusion h
            | none =>
              rw [hs] at h; try simp only at h
              obtain ⟨hk1, hk2⟩ := secretCheck_none hs
              cases hv : handleValued (String.mk (splitFirstEq body).1) entry
                  (toEmbedded (splitFirstEq body).2) (takeNext rest) args with
              | error e => rw [hv] at h; exact Except.noConfusion h
              | ok pr2 =>
                rw [hv] at h; try simp only at h
                obtain ⟨hq1, hq2⟩ := handleValued_preserves hf hk1 hk2
                  (by rw [hv])
                by_cases hcons : pr2.2 = true
                · rw [if_pos hcons] at h
                  cases rest with
                  | nil =>
                    injection h with h
                    subst h
                    exact ⟨by rw [hq1, hp], by rw [hq2, hh]⟩
                  | cons v rest2 =>
                    exact ih rest2 (Nat.le_of_succ_le (by simpa using hrest)) _ _ _ h
                      (by rw [hq1, hp]) (by rw [hq2, hh])
                · rw [if_neg hcons] at h
                  exact ih rest hrest _ _ _ h (by rw [hq1, hp]) (by rw [hq2, hh])
        | short body =>
          rw [hc] at h; try simp only at h
          cases hsh : findShort (String.mk body) with
          | none => rw [hsh] at h; exact Except.noConfusion h
          | some key =>
            rw [hsh] at h; try simp only at h
            cases hf : findOption key with
            | none => rw [hf] at h; exact Except.noConfusion h
            | some entry =>
              rw [hf] at h; try simp only at h
              cases hs : secretCheck false key with
              | some msg => rw [hs] at h; exact Except.noConfusion h
              | none =>
                rw [hs] at h; try simp only at h
                obtain ⟨hk1, hk2⟩ := secretCheck_none hs
                cases hv : handleValued key entry none (takeNext rest) args with
                | error e => rw [hv] at h; exact Except.noConfusion h
                | ok pr2 =>
                  rw [hv] at h; try simp only at h
                  obtain ⟨hq1, hq2⟩ := handleValued_preserves hf hk1 hk2 (by rw [hv])
                  by_cases hcons : pr2.2 = true
                  · rw [if_pos hcons] at h
                    cases rest with
                    | nil =>
                      injection h with h
                      subst h
                      exact ⟨by rw [hq1, hp], by rw [hq2, hh]⟩
                    | cons v rest2 =>
                      exact ih rest2 (Nat.le_of_succ_le (by simpa using hrest)) _ _ _ h
                        (by rw [hq1, hp]) (by rw [hq2, hh])
                  · rw [if_neg hcons] at h
                    exact ih rest hrest _ _ _ h (by rw [hq1, hp]) (by rw [hq2, hh])

/-- C7: for every argument vector that supplies a forbidden-on-command-line
option (`password` or `hashed-password`) via argv, `parse` fails with the
secret-on-command-line error naming the permitted sources (config file and
the corresponding environment variable), and a successful parse of
command-line tokens therefore never contains either option. -/
theorem parse_secrets_never_from_argv :
    (∀ (argv : List String) (args : UserProvidedArgs),
        parse false argv = .ok args → args.password = none ∧ args.hashedPassword = none)
    ∧ (∀ (v : String) (rest : List String),
        parse false ("--password" :: v :: rest)
          = .error "--password can only be set in the config file or passed in via $PASSWORD")
    ∧ (∀ (v : String) (rest : List String),
        parse false ("--hashed-password" :: v :: rest)
          = .error "--hashed-password can only be set in the config file or passed in via $HASHED_PASSWORD") := by
  refine ⟨?_, fun v rest => rfl, fun v rest => rfl⟩
  intro argv args h
  unfold parse at h
  cases hp : parseLoop false argv {} false with
  | error e => rw [hp] at h; exact Except.noConfusion h
  | ok a0 =>
    rw [hp] at h
    simp only at h
    have hsec := parseLoop_secrets argv.length argv (le_refl _) {} false a0 hp rfl rfl
    split at h
    · split at h
      · exact Except.noConfusion h
      · injection h with h; subst h; exact hsec
    · injection h with h; subst h; exact hsec

/-- Witness for C7 at the empty argument vector. -/
theorem parse_secrets_never_from_argv_witness :
    ({} : UserProvidedArgs).password = none ∧ ({} : UserProvidedArgs).hashedPassword = none :=
  parse_secrets_never_from_argv.1 [] {} rfl

/- C2 -/
/-- C2: whenever the inherited session endpoint identifier environment
variable (`VSCODE_IPC_HOOK_CLI`) is set, `shouldOpenInExistingInstance`
returns that identifier, for every argument value. -/
theorem shouldOpenInExistingInstance_inherited_wins
    (w : World) (args : UserProvidedArgs) (i : String)
    (henv : w.env.vscodeIpcHookCli = some i) :
    shouldOpenInExistingInstance w args = some i := by
  unfold shouldOpenInExistingInstance
  rw [henv]

/-- Witness for C2 with an explicit port and positional paths also supplied. -/
theorem shouldOpenInExistingInstance_inherited_wins_witness :
    shouldOpenInExistingInstance { env := { vscodeIpcHookCli := some "test" } }
      { port := some 8081, positional := ["./file"] } = some "test" :=
  shouldOpenInExistingInstance_inherited_wins _ _ _ rfl

/- C1 -/
/-- C1: with no inherited session endpoint identifier in the environment,
`shouldOpenInExistingInstance` returns the recorded endpoint file's
contents whenever a forcing flag is set (without consulting the liveness
probe, and `none` when the file is absent); returns `none` whenever an
explicit port is set with no forcing flag; and otherwise returns the
recorded endpoint exactly when positional paths exist, the endpoint file
is present and the probe succeeds — a failed probe yields `none`, never an
error. -/
theorem shouldOpenInExistingInstance_no_inherited_spec
    (w : World) (args : UserProvidedArgs) (henv : w.env.vscodeIpcHookCli = none) :
    ((args.reuseWindow = true ∨ args.newWindow = true) →
        shouldOpenInExistingInstance w args = w.socketFile)
    ∧ (∀ p, args.port = some p → args.reuseWindow = false → args.newWindow = false →
        shouldOpenInExistingInstance w args = none)
    ∧ (args.reuseWindow = false → args.newWindow = false → args.port = none →
        ∀ x, (shouldOpenInExistingInstance w args = some x ↔
          (args.positional ≠ [] ∧ w.socketFile = some x ∧ w.canConnect x = true))) := by
  unfold shouldOpenInExistingInstance
  rw [henv]
  refine ⟨?_, ?_, ?_⟩
  · intro hflag
    rcases hflag with hflag | hflag <;> rw [hflag] <;> simp
  · intro p hport hr hn
    rw [hr, hn, hport]
    simp
  · intro hr hn hport x
    rw [hr, hn, hport]
    rw [if_neg (by simp : ¬((false || false) = true))]
    by_cases hpos : args.positional = []
    · rw [if_neg (by simp [hpos] : ¬((none : Option Nat) = none ∧ args.positional ≠ []))]
      simp [hpos]
    · rw [if_pos ⟨rfl, hpos⟩]
      simp only [ne_eq, hpos, not_false_iff, true_and]
      cases hsf : w.socketFile with
      | none =>
        constructor
        · intro hx; exact Option.noConfusion hx
        · intro hand; exact Option.noConfusion hand.1
      | some sp =>
        by_cases hcc : w.canConnect sp = true
        · simp [hcc]
          intro hx
          subst hx
          exact hcc
        · simp [hcc]
          intro hx
          subst hx
          simpa using hcc

/-- Witness for C1 in the forcing branch with the endpoint file present. -/
theorem shouldOpenInExistingInstance_no_inherited_spec_witness :
    shouldOpenInExistingInstance { socketFile := some "test" } { reuseWindow := true }
      = some "test" :=
  (shouldOpenInExistingInstance_no_inherited_spec _ _ rfl).1 (Or.inl rfl)

/- C3 counterexample -/
/-- C3 counterexample: a single-dash token is not a bundle of
independently toggled letter aliases — `-vv`, whose letters are each the
valid short alias `v`, is rejected as unknown, and `-vvv` does not set the
same boolean as `-v`. -/
theorem short_cluster_not_letter_bundle :
    parse false ["-vv"] = .error "Unknown option -vv"
    ∧ parse false ["-vvv"] = .ok { verbose := true }
    ∧ parse false ["-v"] = .ok { version := true }
    ∧ parse false ["-vvv"] ≠ parse false ["-v"] := by
  refine ⟨rfl, rfl, rfl, ?_⟩
  decide

/- C3 amended -/
/-- C3 (amended): a single-dash token is matched whole against the
registered short aliases (`v` for `version`, `vvv` for `verbose`), so
`parse(["-vvv","-v"])` yields verbose and version both set, and repeated
occurrences are idempotent. -/
theorem short_alias_whole_token_idempotent :
    parse false ["-vvv", "-v"] = .ok { verbose := true, version := true }
    ∧ parse false ["-vvv", "-v", "-v", "-vvv"] = .ok { verbose := true, version := true } :=
  ⟨rfl, rfl⟩

/- C6 -/
/-- C6: `parse(["--cert"])` succeeds with cert present-but-empty;
`setDefaults` then synthesizes the certificate and key paths
deterministically under the data directory; while `parse(["--cert","test"])`
without `--cert-key` fails with the missing-companion error. -/
theorem cert_default_generation_and_companion :
    parse false ["--cert"] = .ok { cert := some ⟨none⟩ }
    ∧ (setDefaults { cert := some ⟨none⟩ } {}).cert
        = some ⟨some (pathJoin dataDir "localhost.crt")⟩
    ∧ (setDefaults { cert := some ⟨none⟩ } {}).certKey = some (pathJoin dataDir "localhost.key")
    ∧ parse false ["--cert", "test"] = .error "--cert-key is missing" :=
  ⟨rfl, rfl, rfl, rfl⟩

/- C10 -/
/-- C10: for every token ending in a first `=` with nothing after it,
`splitOnFirstEquals` returns only the part before the `=` with no value
element, so `--auth=` supplies no value at all and `parse` fails with the
requires-a-value error for the value-requiring `auth` option. -/
theorem splitOnFirstEquals_trailing_equals (name : String) (h : '=' ∉ name.data) :
    splitOnFirstEquals (name ++ "=") = [name]
    ∧ parse false ["--auth=", "--log=debug"] = .error "--auth requires a value" := by
  constructor
  · have hd : (name ++ "=").data = name.data ++ '=' :: [] := by
      rw [String.data_append]
    unfold splitOnFirstEquals
    rw [hd, splitFirstEq_append _ _ h]
    rfl
  · rfl

/-- Witness for C10 at the test's own input. -/
theorem splitOnFirstEquals_trailing_equals_witness :
    splitOnFirstEquals ("auth" ++ "=") = ["auth"]
    ∧ parse false ["--auth=", "--log=debug"] = .error "--auth requires a value" :=
  splitOnFirstEquals_trailing_equals "auth" (by decide)

/- C9 -/
/-- C9: only the first `=` of a `--name=value` token separates name from
value — `splitOnFirstEquals` returns the whole remainder verbatim, and the
value recovered by `parse` equals everything after the first `=`. -/
theorem splitOnFirstEquals_roundtrip (name value : String)
    (h1 : '=' ∉ name.data) (h2 : value ≠ "") :
    splitOnFirstEquals (name ++ "=" ++ value) = [name, value]
    ∧ parse true ["--hashed-password=" ++ value] = .ok { hashedPassword := some value } := by
  constructor
  · have hd : (name ++ "=" ++ value).data = name.data ++ '=' :: value.data := by
      rw [String.data_append, String.data_append]
      simp
    unfold splitOnFirstEquals
    rw [hd, splitFirstEq_append _ _ h1]
    simp [data_ne_nil h2]
  · have hcons : "hashed-password".data ++ '=' :: value.data
        = 'h' :: ("ashed-password".data ++ '=' :: value.data) := rfl
    have hd : ("--hashed-password=" ++ value).data
        = '-' :: '-' :: 'h' :: ("ashed-password".data ++ '=' :: value.data) := by
      rw [String.data_append]
      simp
    have hclass : classify ("--hashed-password=" ++ value)
        = .long ("hashed-password".data ++ '=' :: value.data) := by
      unfold classify
      rw [hd, hcons]
      rfl
    have hsplit : splitFirstEq ("hashed-password".data ++ '=' :: value.data)
        = ("hashed-password".data, some value.data) :=
      splitFirstEq_append _ _ (by decide)
    have hemb : toEmbedded (some value.data) = some value := by
      unfold toEmbedded
      simp [data_ne_nil h2]
    unfold parse parseLoop
    rw [hclass]
    simp only [hsplit, hemb]
    rfl

/-- Witness for C9 with a value containing an embedded equals sign. -/
theorem splitOnFirstEquals_roundtrip_witness :
    splitOnFirstEquals ("k" ++ "=" ++ "a=b") = ["k", "a=b"]
    ∧ parse true ["--hashed-password=" ++ "a=b"] = .ok { hashedPassword := some "a=b" } :=
  splitOnFirstEquals_roundtrip "k" "a=b" (by decide) (by decide)

/- C4 -/
/-- C4: `setDefaults` resolves the log level — a command-line verbose flag
forces trace (even with an explicit command-line log level); otherwise an
explicit command-line log level wins and the environment `LOG_LEVEL` is
ignored entirely; otherwise a valid environment `LOG_LEVEL` supplies the
level; the resolved verbose boolean is true exactly when the level is
trace; and the result is a pure function of the raw arguments and the
environment snapshot, recomputed on each call. -/
theorem setDefaults_log_resolution (args : UserProvidedArgs) (env : Env) :
    (args.verbose = true →
        (setDefaults args env).log = some "trace" ∧ (setDefaults args env).verbose = true)
    ∧ (∀ l, args.verbose = false → args.log = some l → (setDefaults args env).log = some l)
    ∧ (∀ l, args.verbose = false → args.log = none → env.logLevel = some l →
        logLevels.contains l = true → (setDefaults args env).log = some l)
    ∧ ((setDefaults args env).verbose = true ↔ (setDefaults args env).log = some "trace")
    ∧ ((setDefaults {} { logLevel := some "debug" }).log = some "debug"
        ∧ (setDefaults {} { logLevel := some "debug" }).verbose = false
        ∧ (setDefaults {} { logLevel := some "trace" }).log = some "trace"
        ∧ (setDefaults {} { logLevel := some "trace" }).verbose = true) := by
  refine ⟨?_, ?_, ?_, ?_, rfl, rfl, rfl, rfl⟩
  · intro hv
    unfold setDefaults
    rw [hv]
    simp
  · intro l hv hl
    unfold setDefaults
    rw [hv, hl]
    simp
  · intro l hv hl he hc
    unfold setDefaults
    rw [hv, hl, he]
    have hm : l ∈ logLevels := by simpa using hc
    simp [hm]
  · unfold setDefaults
    cases hv : args.verbose <;> simp [hv]

/-- Witness for C4 at a raw value with both verbose and an explicit log
level, and at an explicit log level under a conflicting environment. -/
theorem setDefaults_log_resolution_witness :
    ((setDefaults { verbose := true, log := some "info" } {}).log = some "trace"
      ∧ (setDefaults { verbose := true, log := some "info" } {}).verbose = true)
    ∧ (setDefaults { log := some "info" } { logLevel := some "debug" }).log = some "info" :=
  ⟨(setDefaults_log_resolution { verbose := true, log := some "info" } {}).1 rfl,
    (setDefaults_log_resolution { log := some "info" } { logLevel := some "debug" }).2.1
      "info" rfl rfl⟩

/- C5 counterexample -/
/-- C5 counterexample: at the repository's own link-override test input,
the user-specified `--cert-key` value survives into the resolved
configuration — it is not cleared, contradicting the claim that every
user-specified certificate option is unset when `link` is given. -/
theorem link_override_keeps_certKey :
    parse false linkArgv = .ok linkRaw
    ∧ (setDefaults linkRaw {}).certKey = some (resolvePath "test")
    ∧ (setDefaults linkRaw {}).certKey ≠ none := by
  refine ⟨rfl, rfl, ?_⟩
  decide

/- C5 amended -/
/-- C5 (amended): when the link option is set, `setDefaults` forces
authentication off, port 0 and host localhost, and clears the cert and
socket values; the `cert-key` value is retained unchanged rather than
cleared. -/
theorem setDefaults_link_override (args : UserProvidedArgs) (env : Env)
    (h : args.link.isSome = true) :
    (setDefaults args env).auth = "none" ∧ (setDefaults args env).port = 0
    ∧ (setDefaults args env).host = "localhost"
    ∧ (setDefaults args env).cert = none ∧ (setDefaults args env).socket = none
    ∧ (setDefaults args env).certKey = args.certKey := by
  unfold setDefaults
  rw [h]
  simp

/-- Witness for C5 at the parsed link-override test input. -/
theorem setDefaults_link_override_witness :
    (setDefaults linkRaw {}).auth = "none"
    ∧ (setDefaults linkRaw {}).port = 0
    ∧ (setDefaults linkRaw {}).host = "localhost"
    ∧ (setDefaults linkRaw {}).cert = none
    ∧ (setDefaults linkRaw {}).socket = none
    ∧ (setDefaults linkRaw {}).certKey = linkRaw.certKey :=
  setDefaults_link_override linkRaw {} rfl

/- C8 -/
/-- C8: `bindAddrFromArgs` chooses the port from the explicit port
argument first, else the numeric `PORT` environment variable, else the
bind-addr-derived or default port; with `{port: 3000}` and `PORT=8000`
the result's port is 3000; and the port choice is independent of the host
field. -/
theorem bindAddrFromArgs_port_precedence (addr : Addr) (args : UserProvidedArgs) (env : Env) :
    (∀ p, args.port = some p → (bindAddrFromArgs addr args env).port = p)
    ∧ (∀ s n, args.port = none → env.port = some s → toDecimalNat s = some n →
        (bindAddrFromArgs addr args env).port = n)
    ∧ (args.port = none → env.port = none → args.bindAddr = none →
        (bindAddrFromArgs addr args env).port = addr.port)
    ∧ (∀ ba, args.port = none → env.port = none → args.bindAddr = some ba →
        (bindAddrFromArgs addr args env).port = (parseBindAddr ba).port)
    ∧ (∀ h, (bindAddrFromArgs addr args env).port
        = (bindAddrFromArgs addr { args with host := h } env).port)
    ∧ bindAddrFromArgs ⟨"localhost", 8080⟩ { port := some 3000 } { port := some "8000" }
        = ⟨"localhost", 3000⟩ := by
  refine ⟨?_, ?_, ?_, ?_, ?_, rfl⟩
  · intro p hp
    unfold bindAddrFromArgs
    rw [hp]
  · intro s n hp he hn
    unfold bindAddrFromArgs
    simp only [hp, he, hn]
  · intro hp he hb
    unfold bindAddrFromArgs
    rw [hp, he, hb]
    cases args.host <;> rfl
  · intro ba hp he hb
    unfold bindAddrFromArgs
    rw [hp, he, hb]
    cases args.host <;> rfl
  · intro h
    unfold bindAddrFromArgs
    cases henv : env.port with
    | none =>
      cases args.bindAddr <;> cases args.port <;> cases args.host <;> cases h <;> simp
    | some p =>
      cases htd : toDecimalNat p <;> cases args.bindAddr <;> cases args.port <;>
        cases args.host <;> cases h <;> simp [htd]

/-- Witness for C8: explicit port 3000 outranks environment port 8000. -/
theorem bindAddrFromArgs_port_precedence_witness :
    (bindAddrFromArgs ⟨"localhost", 8080⟩ { port := some 3000 } { port := some "8000" }).port
      = 3000 :=
  (bindAddrFromArgs_port_precedence ⟨"localhost", 8080⟩ { port := some 3000 }
    { port := some "8000" }).1 3000 rfl
end CodeServer
